import Mathlib

/-!
Verification of the Slack channel adapter (`src/channels/slack.ts`) and outbound
router (`src/router.ts`) of the `corey` repository, as a shallow embedding in Lean.

Modelling conventions:
* JavaScript strings are modelled as `String` for opaque tokens (ids, timestamps,
  emoji names) and as `List Char` for text that the code processes character by
  character (message content, chunking, tag stripping).
* `undefined`/`null` become `Option`; JavaScript truthiness of strings
  (`undefined`, `null` and `""` are falsy) is `strFalsy`.
* Network calls (`chat.postMessage`, `conversations.history`, `fetch`,
  `users.info`, …) are oracles passed as function parameters; a throwing call is
  an oracle returning `none` / `Except.error`.  `try`/`catch` in the source
  becomes a `match` on the oracle result; code NOT wrapped in `try` propagates
  the error value in the model's result.
* `await` interleaving, timers and logging have no observable effect on the
  properties below and are dropped.
* The regex character class `\s` is modelled by `wsChar` (space, tab, newline,
  carriage return).
* Loops that are not structurally recursive use the standard fuel idiom with
  fuel = input length, which is always sufficient because every iteration
  consumes at least one character/element.
-/

namespace Corey

/-- JS truthiness for optional strings: `undefined`/`null`/`""` are falsy. -/
def strFalsy : Option String → Bool
  | none => true
  | some s => s == ""

/-- JS `a || b` on optional strings (first truthy value). -/
def jsOr (a b : Option String) : Option String :=
  if strFalsy a then b else a

/-- JS `a || d` where `d` is a plain string default. -/
def jsGetD (a : Option String) (d : String) : String :=
  if strFalsy a then d else a.getD d

/-- The whitespace class used to model the regex `\s` and `String.prototype.trim`. -/
def wsChar (c : Char) : Bool :=
  c == ' ' || c == '\t' || c == '\n' || c == '\r'

/-- `pat` occurs as a contiguous substring of the list (JS `String.prototype.includes`). -/
def containsSeq (pat : List Char) : List Char → Bool
  | [] => pat.isPrefixOf []
  | c :: rest => pat.isPrefixOf (c :: rest) || containsSeq pat rest

/-- JS `String.prototype.trim` (both ends). -/
def trimL (s : List Char) : List Char :=
  ((s.dropWhile wsChar).reverse.dropWhile wsChar).reverse

/-- The literal mention token `<@BOT>` of the adapter's own identity. -/
def mentionPat (bot : String) : List Char :=
  '<' :: '@' :: (bot.toList ++ ['>'])

/-- Fueled scan for `text.replace(new RegExp('<@BOT>\\s*', 'g'), '')`: every
occurrence of the mention token followed by a maximal whitespace run is removed.
Fuel = input length is sufficient (each step consumes at least one character). -/
def stripMentionFuel (bot : String) : Nat → List Char → List Char
  | 0, s => s
  | _ + 1, [] => []
  | fuel + 1, c :: rest =>
    if (mentionPat bot).isPrefixOf (c :: rest) then
      stripMentionFuel bot fuel (((c :: rest).drop (mentionPat bot).length).dropWhile wsChar)
    else
      c :: stripMentionFuel bot fuel rest

/-- `text.replace(/<@BOT>\s*/g, '')` (slack.ts line 260/376/595/646). -/
def stripMentionL (bot : String) (s : List Char) : List Char :=
  stripMentionFuel bot s.length s

/-- `remaining.lastIndexOf('\n', bound)`: index of the last `'\n'` at position
`≤ bound`, or `none` (JS returns `-1`; the source immediately collapses `-1`
and `0` into the hard-split case, see `splitChunksFuel`). -/
def lastIndexOfNlAux : List Char → Nat → Nat → Option Nat → Option Nat
  | [], _, _, best => best
  | c :: rest, i, bound, best =>
    if bound < i then best
    else lastIndexOfNlAux rest (i + 1) bound (if c == '\n' then some i else best)

def lastIndexOfNl (l : List Char) (bound : Nat) : Option Nat :=
  lastIndexOfNlAux l 0 bound none

/-- `MAX_MESSAGE_LENGTH` (slack.ts line 17). -/
def MAX_MESSAGE_LENGTH : Nat := 39000

/-- The `while (remaining.length > L)` loop of `splitMessage` (slack.ts
lines 895-909), fueled with fuel = initial length (each iteration drops at
least `splitIdx + 1 ≥ 1` characters).  `splitIdx <= 0` in the source collapses
`lastIndexOf` results `-1` and `0` into a hard split at `L`. -/
def splitChunksFuel (L : Nat) : Nat → List Char → List (List Char)
  | 0, remaining => if remaining.isEmpty then [] else [remaining]
  | fuel + 1, remaining =>
    if L < remaining.length then
      let splitIdx :=
        match lastIndexOfNl remaining L with
        | some i => if i = 0 then L else i
        | none => L
      remaining.take splitIdx :: splitChunksFuel L fuel (remaining.drop (splitIdx + 1))
    else if remaining.isEmpty then [] else [remaining]

/-- `splitMessage` with the limit as a parameter (the source hard-codes
`MAX_MESSAGE_LENGTH`). -/
def splitMessageAt (L : Nat) (text : List Char) : List (List Char) :=
  if text.length ≤ L then [text] else splitChunksFuel L text.length text

/-- `splitMessage` (slack.ts lines 892-911). -/
def splitMessage (text : List Char) : List (List Char) :=
  splitMessageAt MAX_MESSAGE_LENGTH text

/-- Result of `resolveUserInfo` (slack.ts lines 462-481): display name and
timezone, `""` when absent.  The cache and the `users.info` network call are
modelled by passing a resolution function; `resolveUserInfo` itself never
throws (its body is wrapped in `try`/`catch` with a fallback value). -/
structure UserInfo where
  name : String
  tz : String
  deriving DecidableEq, Repr

/-- `MessageFile` as constructed by `downloadFiles` (fields from types.ts usage). -/
structure MessageFile where
  name : String
  mimetype : String
  size : Nat
  localPath : String
  deriving DecidableEq, Repr

/-- A raw Slack file reference as consumed by `downloadFiles`. -/
structure SlackFile where
  id : String
  name : Option String
  url_private_download : Option String
  url_private : Option String
  size : Option Nat
  mimetype : Option String
  deriving DecidableEq, Repr

/-- The canonical message record passed to `opts.onMessage` (fields from the
construction sites in slack.ts; `is_reaction` and `files` default to absent). -/
structure NewMessage where
  id : String
  chat_jid : String
  sender : String
  sender_name : String
  sender_tz : Option String
  content : List Char
  timestamp : String
  is_from_me : Bool
  is_bot_message : Bool
  thread_ts : Option String
  files : Option (List MessageFile) := none
  is_reaction : Bool := false
  deriving DecidableEq, Repr

/-- An entry of `outgoingQueue` (slack.ts line 52). -/
structure OutboundItem where
  jid : String
  text : List Char
  threadTs : Option String
  deriving DecidableEq, Repr

/-- A raw message as returned by `conversations.history` / `conversations.replies`.
`reply_count = 0` models both `undefined` and `0` (both falsy in the source's
`msg.reply_count && msg.reply_count > 0`). -/
structure HistMsg where
  ts : Option String
  user : Option String
  text : Option String
  bot_id : Option String
  subtype : Option String
  thread_ts : Option String
  reply_count : Nat := 0
  deriving DecidableEq, Repr

/-- Result of the `lookupMessage` callback (slack.ts line 34). -/
structure DbMsg where
  content : List Char
  thread_ts : Option String
  is_bot_message : Bool
  deriving DecidableEq, Repr

/-- `MAX_FILE_SIZE` (slack.ts line 19). -/
def MAX_FILE_SIZE : Nat := 20 * 1024 * 1024

/-- `ts.replace(/\./g, '-')` (slack.ts line 311). -/
def safeTs (ts : String) : String :=
  ⟨ts.data.map (fun c => if c = '.' then '-' else c)⟩

/-- `file.url_private_download || file.url_private` (slack.ts line 316). -/
def fileUrl (f : SlackFile) : Option String :=
  jsOr f.url_private_download f.url_private

/-- `file.name || 'file-' + file.id` (slack.ts lines 339/345). -/
def fileName (f : SlackFile) : String :=
  jsGetD f.name ("file-" ++ f.id)

/-- `downloadFiles` (slack.ts lines 304-358).  `fetch'` is the HTTP oracle:
`some n` = a `response.ok` body of `n` bytes, `none` = `!response.ok` or a
thrown error (both branches skip the file and continue).  `DATA_DIR` and
`path.relative(process.cwd(), ...)` are modelled as the literal path join
`data/files/<channel>/<safeTs>/<name>`. -/
def downloadFiles (fetch' : String → Option Nat) (channel ts : String) :
    List SlackFile → List MessageFile
  | [] => []
  | f :: rest =>
    let url := fileUrl f
    if strFalsy url then downloadFiles fetch' channel ts rest
    else if MAX_FILE_SIZE < f.size.getD 0 then downloadFiles fetch' channel ts rest
    else
      match fetch' (url.getD "") with
      | none => downloadFiles fetch' channel ts rest
      | some n =>
        { name := fileName f
          mimetype := jsGetD f.mimetype "application/octet-stream"
          size := n
          localPath := "data/files/" ++ channel ++ "/" ++ safeTs ts ++ "/" ++ fileName f }
        :: downloadFiles fetch' channel ts rest

/-- The mention-stripping step of `handleEvent` (slack.ts lines 258-261):
strip-and-trim only when `isMention && this.botUserId`. -/
def strippedText (bot : String) (isMention : Bool) (raw : List Char) : List Char :=
  if isMention && bot != "" then trimL (stripMentionL bot raw) else raw

/-- Observable outcome of `handleEvent`: whether `onChatMetadata` fired and the
message passed to `onMessage` (if any). -/
structure HandleResult where
  metadataFired : Bool
  message : Option NewMessage
  deriving DecidableEq, Repr

/-- `userInfo.tz || undefined` (slack.ts line 293 etc.). -/
def tzOpt (ui : UserInfo) : Option String :=
  if ui.tz = "" then none else some ui.tz

/-- `handleEvent` (slack.ts lines 248-302).  `registered` models
`opts.registeredGroups()` membership, `userInfo` models `resolveUserInfo`,
`toIso` models `new Date(parseFloat(ts) * 1000).toISOString()`, `fetch'` is the
file-download oracle.  The fire-and-forget eyes reaction (line 278) has no
observable effect on the modelled outcome and is dropped. -/
def handleEvent (registered : String → Bool) (userInfo : String → UserInfo)
    (toIso : String → String) (fetch' : String → Option Nat) (bot : String)
    (channel userId : String) (rawText : List Char) (ts : String)
    (isMention : Bool) (threadTs : Option String) (eventFiles : List SlackFile) :
    HandleResult :=
  let text := strippedText bot isMention rawText
  if text.isEmpty && eventFiles.isEmpty then ⟨false, none⟩
  else
    let timestamp := toIso ts
    let ui := userInfo userId
    if registered channel then
      let files : Option (List MessageFile) :=
        if eventFiles.isEmpty then none else some (downloadFiles fetch' channel ts eventFiles)
      ⟨true, some
        { id := ts
          chat_jid := channel
          sender := userId
          sender_name := ui.name
          sender_tz := tzOpt ui
          content :=
            if text ≠ [] then text
            else if 0 < (files.getD []).length then "[file attachment]".toList else []
          timestamp := timestamp
          is_from_me := false
          is_bot_message := false
          thread_ts := threadTs
          files := files }⟩
    else ⟨true, none⟩

/-- The chunk-sending loop of `sendMessage` (slack.ts lines 533-540).  `post`
is the `chat.postMessage` oracle: `some ts` = success, `none` = throw.  The
accumulator is JS's `lastTs`; the result is `none` when a chunk send threw. -/
def trySendChunks (post : String → List Char → Option String → Option String)
    (jid : String) (tts : Option String) :
    List (List Char) → Option String → Option (Option String)
  | [], last => some last
  | ch :: rest, _ =>
    match post jid ch tts with
    | none => none
    | some t => trySendChunks post jid tts rest (some t)

/-- `sendMessage` (slack.ts lines 514-550) as a state transformer on
`(connected, outgoingQueue)`.  `resolveM` models `resolveMentions`
(slack.ts lines 491-512), a pure text rewrite whose internals none of the
claims depend on.  The result component is the returned `lastTs`.  Note that
the `try`/`catch` makes the operation total: a failed chunk sequence enqueues
the full (mention-resolved) text and returns normally. -/
def sendMessage (post : String → List Char → Option String → Option String)
    (resolveM : List Char → List Char) (connected : Bool)
    (queue : List OutboundItem) (jid : String) (text : List Char)
    (tts : Option String) : (Bool × List OutboundItem) × Option String :=
  if !connected then
    ((connected, queue ++ [⟨jid, text, tts⟩]), none)
  else
    let rtext := resolveM text
    match trySendChunks post jid tts (splitMessage rtext) none with
    | some last => ((connected, queue), last)
    | none => ((connected, queue ++ [⟨jid, rtext, tts⟩]), none)

/-- The chunk loop inside `flushOutgoingQueue` (slack.ts lines 920-927):
returns the chunks actually posted (in order) and whether all succeeded; a
`none` from `post` is the un-caught `postMessage` throw. -/
def sendChunksAcc (post : String → List Char → Option String → Option String)
    (jid : String) (tts : Option String) :
    List (List Char) → List (String × List Char) × Bool
  | [] => ([], true)
  | ch :: rest =>
    match post jid ch tts with
    | none => ([], false)
    | some _ =>
      let r := sendChunksAcc post jid tts rest
      ((jid, ch) :: r.1, r.2)

/-- The `while` loop of `flushOutgoingQueue` (slack.ts lines 918-933).  There
is no `try`/`catch` around the sends: on a failed chunk the exception
propagates, the loop stops, and the already-`shift`ed item is NOT re-enqueued.
Result: (final queue, chunks posted, `true` iff no send threw). -/
def flushLoop (post : String → List Char → Option String → Option String) :
    List OutboundItem → List (String × List Char) →
    List OutboundItem × List (String × List Char) × Bool
  | [], sent => ([], sent, true)
  | item :: rest, sent =>
    let r := sendChunksAcc post item.jid item.threadTs (splitMessage item.text)
    if r.2 then flushLoop post rest (sent ++ r.1)
    else (rest, sent ++ r.1, false)

/-- `flushOutgoingQueue` (slack.ts lines 913-937).  The `flushing` re-entrancy
guard and the empty-queue check return immediately; the `finally` resets the
flag on both the normal and the throwing path (the flag is therefore not part
of the result).  The inter-item rate-limit delay has no observable effect. -/
def flushOutgoingQueue (post : String → List Char → Option String → Option String)
    (flushing : Bool) (queue : List OutboundItem) :
    List OutboundItem × List (String × List Char) × Bool :=
  if flushing || queue.isEmpty then (queue, [], true)
  else flushLoop post queue []

/-- The fields of a `reaction_added` event used by the handler. -/
structure ReactionEvent where
  user : Option String
  itemType : String
  channel : String
  ts : String
  reaction : String
  event_ts : String
  deriving DecidableEq, Repr

/-- The `conversations.history` fallback of the reaction handler (slack.ts
lines 148-164).  `histTop` models `conversations.history({latest, inclusive,
limit: 1})` delivering `history.messages?.[0]`: `Except.error` = throw
(caught, handler returns), `Except.ok none` = no message. -/
def lookupReactedViaApi (histTop : String → String → Except Unit (Option HistMsg))
    (bot : String) (channel messageTs : String) : Option (List Char × Option String) :=
  match histTop channel messageTs with
  | Except.error _ => none
  | Except.ok none => none
  | Except.ok (some m) =>
    if m.user ≠ some bot then none
    else some (((m.text).getD "").toList, if strFalsy m.thread_ts then none else m.thread_ts)

/-- Lines 135-164 of the reaction handler: resolve the reacted-to message's
content and thread, DB first (`opts.lookupMessage`), Slack API as fallback when
the DB content is falsy.  `none` = the handler returns without producing a
message. -/
def resolveReacted (lookup : Option (String → String → Option DbMsg))
    (histTop : String → String → Except Unit (Option HistMsg))
    (bot : String) (channel messageTs : String) : Option (List Char × Option String) :=
  match lookup with
  | some f =>
    match f channel messageTs with
    | some db =>
      if !db.is_bot_message then none
      else if db.content = [] then lookupReactedViaApi histTop bot channel messageTs
      else some (db.content, if strFalsy db.thread_ts then none else db.thread_ts)
    | none => lookupReactedViaApi histTop bot channel messageTs
  | none => lookupReactedViaApi histTop bot channel messageTs

/-- The snippet of the reacted-to content (slack.ts lines 175-177): truncated
at 200 characters with an ellipsis marker when truncated. -/
def reactionSnippet (rc : List Char) : List Char :=
  if 200 < rc.length then rc.take 200 ++ "...".toList else rc

/-- The synthesized reaction content (slack.ts lines 178-180). -/
def reactionContent (emoji : String) (rc : List Char) : List Char :=
  if reactionSnippet rc ≠ [] then
    "[reacted with :".toList ++ emoji.toList ++ ": to: ".toList
      ++ ['"'] ++ reactionSnippet rc ++ ['"', ']']
  else
    "[reacted with :".toList ++ emoji.toList ++ [':', ']']

/-- The `reaction_added` handler (slack.ts lines 122-200).  Returns the
`CanonicalMessage` passed to `onMessage`, or `none` when the event is ignored. -/
def reaction_added (registered : String → Bool)
    (lookup : Option (String → String → Option DbMsg))
    (histTop : String → String → Except Unit (Option HistMsg))
    (userInfo : String → UserInfo) (toIso : String → String) (bot : String)
    (ev : ReactionEvent) : Option NewMessage :=
  if strFalsy ev.user || ev.user == some bot then none
  else if ev.itemType ≠ "message" then none
  else if !registered ev.channel then none
  else
    match resolveReacted lookup histTop bot ev.channel ev.ts with
    | none => none
    | some (rc, tts) =>
      let ui := userInfo ((ev.user).getD "")
      some
        { id := "reaction-" ++ ev.event_ts
          chat_jid := ev.channel
          sender := (ev.user).getD ""
          sender_name := ui.name
          sender_tz := tzOpt ui
          content := reactionContent ev.reaction rc
          timestamp := toIso ev.event_ts
          is_from_me := false
          is_bot_message := false
          thread_ts := some (tts.getD ev.ts)
          is_reaction := true }

/-- Accumulated observable effects of `catchUpMessages`: the recovered count,
the `onChatMetadata` calls and the `onMessage` calls, in order. -/
structure CatchUpAcc where
  count : Nat
  metadata : List (String × String)
  delivered : List (String × NewMessage)
  deriving DecidableEq, Repr

/-- The canonical message built for a top-level message during catch-up
(slack.ts lines 591-622), including the thread-key computation of
lines 602-608. -/
def mkCatchUpMsg (userInfo : String → UserInfo) (toIso : String → String)
    (bot : String) (jid : String) (m : HistMsg) : NewMessage :=
  let rawText := ((m.text).getD "").toList
  let text := if bot ≠ "" then trimL (stripMentionL bot rawText) else rawText
  let isMention := containsSeq (mentionPat bot) rawText
  let threadTs : Option String :=
    if !strFalsy m.thread_ts && m.thread_ts ≠ m.ts then m.thread_ts
    else if isMention || decide (0 < m.reply_count) then m.ts
    else none
  let ui := userInfo ((m.user).getD "")
  { id := (m.ts).getD ""
    chat_jid := jid
    sender := (m.user).getD ""
    sender_name := ui.name
    sender_tz := tzOpt ui
    content := if text ≠ [] then text else "[message]".toList
    timestamp := toIso ((m.ts).getD "")
    is_from_me := false
    is_bot_message := false
    thread_ts := threadTs }

/-- The canonical message built for a thread reply during catch-up
(slack.ts lines 643-661); its thread key is always the parent's `ts`. -/
def mkReplyMsg (userInfo : String → UserInfo) (toIso : String → String)
    (bot : String) (jid : String) (parentTs : Option String) (r : HistMsg) : NewMessage :=
  let rawText := ((r.text).getD "").toList
  let text := if bot ≠ "" then trimL (stripMentionL bot rawText) else rawText
  let ui := userInfo ((r.user).getD "")
  { id := (r.ts).getD ""
    chat_jid := jid
    sender := (r.user).getD ""
    sender_name := ui.name
    sender_tz := tzOpt ui
    content := if text ≠ [] then text else "[message]".toList
    timestamp := toIso ((r.ts).getD "")
    is_from_me := false
    is_bot_message := false
    thread_ts := parentTs }

/-- The skip filter applied to every recovered message and reply (slack.ts
lines 588-589 and 640-641): bot messages, non-`file_share` subtypes, and
messages without `ts`/`user` are skipped. -/
def skipHistMsg (m : HistMsg) : Bool :=
  !strFalsy m.bot_id || (!strFalsy m.subtype && m.subtype ≠ some "file_share")
    || strFalsy m.ts || strFalsy m.user

/-- Processing of one thread reply (slack.ts lines 637-663). -/
def processReply (userInfo : String → UserInfo) (toIso : String → String)
    (bot : String) (jid : String) (parentTs : Option String) (acc : CatchUpAcc)
    (r : HistMsg) : CatchUpAcc :=
  if r.ts == parentTs then acc
  else if skipHistMsg r then acc
  else
    { acc with
      count := acc.count + 1
      delivered := acc.delivered ++ [(jid, mkReplyMsg userInfo toIso bot jid parentTs r)] }

/-- Processing of one top-level recovered message including its thread-reply
fetch (slack.ts lines 586-669).  `repl` models `conversations.replies`
(jid, ts, oldest); its failure is caught and logged (lines 665-667). -/
def processMsg (userInfo : String → UserInfo) (toIso : String → String)
    (bot : String) (repl : String → String → String → Except Unit (List HistMsg))
    (jid oldest : String) (acc : CatchUpAcc) (m : HistMsg) : CatchUpAcc :=
  if skipHistMsg m then acc
  else
    let acc' : CatchUpAcc :=
      { acc with
        count := acc.count + 1
        metadata := acc.metadata ++ [(jid, toIso ((m.ts).getD ""))]
        delivered := acc.delivered ++ [(jid, mkCatchUpMsg userInfo toIso bot jid m)] }
    if 0 < m.reply_count then
      match repl jid ((m.ts).getD "") oldest with
      | Except.error _ => acc'
      | Except.ok rs => rs.foldl (processReply userInfo toIso bot jid m.ts) acc'
    else acc'

/-- `latestTs || String(Date.now() / 1000 - 12 * 60 * 60)` (slack.ts
line 572); the 12-hour fallback window is the parameter `fb`. -/
def oldestOf (latestTs : Option String) (fb : String) : String :=
  if strFalsy latestTs then fb else latestTs.getD fb

/-- Catch-up for one conversation (slack.ts lines 569-673).  `hist` models
`conversations.history` (jid, oldest) with `inclusive: false`; its failure is
caught per conversation (lines 670-672).  The API returns messages
newest-first; the source reverses them before processing. -/
def catchUpChannel (userInfo : String → UserInfo) (toIso : String → String)
    (bot : String) (hist : String → String → Except Unit (List HistMsg))
    (repl : String → String → String → Except Unit (List HistMsg)) (fb : String)
    (acc : CatchUpAcc) (jid : String) (latestTs : Option String) : CatchUpAcc :=
  let oldest := oldestOf latestTs fb
  match hist jid oldest with
  | Except.error _ => acc
  | Except.ok msgs => msgs.reverse.foldl (processMsg userInfo toIso bot repl jid oldest) acc

/-- `catchUpMessages` (slack.ts lines 564-676). -/
def catchUpMessages (userInfo : String → UserInfo) (toIso : String → String)
    (bot : String) (hist : String → String → Except Unit (List HistMsg))
    (repl : String → String → String → Except Unit (List HistMsg)) (fb : String)
    (channels : List (String × Option String)) : CatchUpAcc :=
  channels.foldl (fun acc c => catchUpChannel userInfo toIso bot hist repl fb acc c.1 c.2)
    ⟨0, [], []⟩

/-- The credential gate of `connect` (slack.ts lines 63-72):
`process.env.X || env.X` for each token, then throw when either is falsy. -/
def connectCredCheck (procBot envBot procApp envApp : Option String) : Except String Unit :=
  let botToken := jsOr procBot envBot
  let appToken := jsOr procApp envApp
  if strFalsy botToken || strFalsy appToken then
    Except.error "Missing SLACK_BOT_TOKEN or SLACK_APP_TOKEN. Add them to .env and re-run."
  else Except.ok ()

/-- `addReaction` (slack.ts lines 691-699): `try { await reactions.add }
catch (err) { log; throw err }` — the failure is logged and RE-THROWN. -/
def addReaction (apiCall : Except Unit Unit) : Except Unit Unit :=
  match apiCall with
  | Except.ok _ => Except.ok ()
  | Except.error e => Except.error e

/-- `removeReaction` (slack.ts lines 701-709): same shape, failure re-thrown. -/
def removeReaction (apiCall : Except Unit Unit) : Except Unit Unit :=
  match apiCall with
  | Except.ok _ => Except.ok ()
  | Except.error e => Except.error e

/-- `sendFile` (slack.ts lines 711-739): the upload call is wrapped in
`try`/`catch` that logs and re-throws. -/
def sendFile (uploadCall : Except Unit Unit) : Except Unit Unit :=
  match uploadCall with
  | Except.ok _ => Except.ok ()
  | Except.error e => Except.error e

/-- `syncChannelMetadata` (slack.ts lines 746-793): everything after the
24-hour gate is wrapped in one `try`/`catch` that logs and returns, so the
operation never raises.  The pagination over `conversations.list` and the
per-channel naming are collapsed into one oracle call returning the
`(id, name)` pairs to store. -/
def syncChannelMetadata (listCall : Except Unit (List (String × String))) :
    List (String × String) :=
  match listCall with
  | Except.error _ => []
  | Except.ok chans => chans

/-- The literal tag `<internal>` (router.ts). -/
def openTag : List Char := "<internal>".toList

/-- The literal tag `</internal>`. -/
def closeTag : List Char := "</internal>".toList

/-- Advance past the first occurrence of `</internal>`: the lazy part of the
regex `/<internal>[\s\S]*?<\/internal>/` matches everything up to the NEAREST
closing tag.  `none` = no closing tag in the rest of the input. -/
def dropAfterClose : List Char → Option (List Char)
  | [] => none
  | c :: rest =>
    if closeTag.isPrefixOf (c :: rest) then some ((c :: rest).drop closeTag.length)
    else dropAfterClose rest

/-- Fueled scan for `text.replace(/<internal>[\s\S]*?<\/internal>/g, '')`
(router.ts line 30): each `<internal>` that has a later `</internal>` is
removed together with everything up to and including that nearest closing tag;
an unclosed `<internal>` is left in place (handled by the second pass).
Fuel = input length suffices (every step consumes at least one character). -/
def stripClosedFuel : Nat → List Char → List Char
  | 0, s => s
  | _ + 1, [] => []
  | fuel + 1, c :: rest =>
    if openTag.isPrefixOf (c :: rest) then
      match dropAfterClose ((c :: rest).drop openTag.length) with
      | some rest2 => stripClosedFuel fuel rest2
      | none => c :: stripClosedFuel fuel rest
    else c :: stripClosedFuel fuel rest

def stripClosed (s : List Char) : List Char :=
  stripClosedFuel s.length s

/-- `result.replace(/<internal>[\s\S]*/g, '')` (router.ts line 32): everything
from the first remaining `<internal>` to the end of the string is removed. -/
def stripUnclosed : List Char → List Char
  | [] => []
  | c :: rest =>
    if openTag.isPrefixOf (c :: rest) then [] else c :: stripUnclosed rest

/-- `stripInternalTags` (router.ts lines 27-33). -/
def stripInternalTags (s : List Char) : List Char :=
  trimL (stripUnclosed (stripClosed s))

/-- `formatOutbound` (router.ts lines 35-39). -/
def formatOutbound (rawText : List Char) : List Char :=
  let text := stripInternalTags rawText
  if text = [] then [] else text

/-- The thread-key rule as worded by the catch-up claim: the explicit
parent-thread reference if present and different from the message's own id;
else the message's own id if it mentions the bot or has reply children; else
no thread key.  Stated from the claim's words, to be compared with the
source-derived `mkCatchUpMsg`. -/
def claimThreadKey (bot : String) (m : HistMsg) : Option String :=
  if m.thread_ts.isSome ∧ m.thread_ts ≠ m.ts then m.thread_ts
  else if containsSeq (mentionPat bot) (((m.text).getD "").toList) ∨ 0 < m.reply_count then m.ts
  else none

/-- An input made up entirely of whitespace and properly closed
`<internal>…</internal>` blocks (each block's body free of the closing tag),
formalizing the reading of "an input consisting entirely of internal blocks
(plus whitespace)" in the formatOutbound claim. -/
inductive WsBlocks : List Char → Prop
  | nil : WsBlocks []
  | ws (c : Char) (l : List Char) : wsChar c = true → WsBlocks l → WsBlocks (c :: l)
  | block (body rest : List Char) : containsSeq closeTag body = false → WsBlocks rest →
      WsBlocks (openTag ++ body ++ closeTag ++ rest)

/-! ### Helper lemmas -/

lemma lastIndexOfNlAux_no_nl (l : List Char) (i bound : Nat)
    (h : ∀ c ∈ l, c ≠ '\n') : lastIndexOfNlAux l i bound none = none := by
  induction l generalizing i with
  | nil => rfl
  | cons c rest ih =>
    simp only [lastIndexOfNlAux]
    split
    · rfl
    · have hc : (c == '\n') = false := by
        simp only [beq_eq_false_iff_ne, ne_eq]
        exact h c (List.mem_cons_self c rest)
      rw [hc]
      exact ih (i + 1) fun c' hc' => h c' (List.mem_cons_of_mem c hc')

lemma lastIndexOfNl_replicate_a (n bound : Nat) :
    lastIndexOfNl (List.replicate n 'a') bound = none := by
  apply lastIndexOfNlAux_no_nl
  intro c hc
  rw [List.eq_of_mem_replicate hc]
  decide

/-- The hard-split branch of `splitMessage` drops the character at the split
index: a run of `L + 2` identical characters with no newline splits into a
chunk of `L` characters and a chunk of one character — one character is lost. -/
lemma splitMessageAt_hard_split_drop (L : Nat) (hL : 1 ≤ L) :
    splitMessageAt L (List.replicate (L + 2) 'a') = [List.replicate L 'a', ['a']] := by
  unfold splitMessageAt
  rw [List.length_replicate, if_neg (by omega)]
  show splitChunksFuel L (L + 1 + 1) (List.replicate (L + 2) 'a') = _
  rw [splitChunksFuel]
  rw [List.length_replicate, if_pos (by omega)]
  simp only [lastIndexOfNl_replicate_a]
  rw [List.take_replicate, List.drop_replicate]
  have h1 : min L (L + 2) = L := by omega
  have h2 : L + 2 - (L + 1) = 1 := by omega
  rw [h1, h2]
  show _ :: splitChunksFuel L (L + 1) (List.replicate 1 'a') = _
  rw [splitChunksFuel]
  rw [List.length_replicate, if_neg (by omega)]
  simp [List.replicate]

lemma sendChunksAcc_all_ok (post : String → List Char → Option String → Option String)
    (jid : String) (tts : Option String) (chunks : List (List Char))
    (h : ∀ ch ∈ chunks, post jid ch tts ≠ none) :
    sendChunksAcc post jid tts chunks = (chunks.map fun ch => (jid, ch), true) := by
  induction chunks with
  | nil => rfl
  | cons ch rest ih =>
    simp only [sendChunksAcc]
    cases hp : post jid ch tts with
    | none => exact absurd hp (h ch (List.mem_cons_self ch rest))
    | some t =>
      rw [ih fun c hc => h c (List.mem_cons_of_mem ch hc)]
      simp

lemma flushLoop_all_ok (post : String → List Char → Option String → Option String)
    (q : List OutboundItem) (sent : List (String × List Char))
    (h : ∀ j ∈ q, ∀ ch ∈ splitMessage j.text, post j.jid ch j.threadTs ≠ none) :
    flushLoop post q sent
      = ([], sent ++ (q.map fun j => (splitMessage j.text).map fun ch => (j.jid, ch)).flatten,
         true) := by
  induction q generalizing sent with
  | nil => simp [flushLoop]
  | cons item rest ih =>
    simp only [flushLoop]
    rw [sendChunksAcc_all_ok post item.jid item.threadTs (splitMessage item.text)
      (h item (List.mem_cons_self item rest))]
    simp only [if_pos]
    rw [ih (sent ++ (splitMessage item.text).map fun ch => (item.jid, ch))
      (fun j hj => h j (List.mem_cons_of_mem item hj))]
    simp [List.append_assoc]

/-! ### C1: drain-pass behaviour of `flushOutgoingQueue` -/

/-- C1 (counterexample).  The claim states a drained item whose send fails is
re-enqueued at the back and the loop continues.  Concretely: with queue
`[{C1,"a"}, {C2,"b"}]` and every `postMessage` throwing, the drain pass ends
with queue `[{C2,"b"}]`: the first item was removed, nothing was posted, the
error propagated, and the failed item is NOT in the remaining queue — it was
dropped, not re-enqueued. -/
theorem flushOutgoingQueue_drops_failed_item :
    flushOutgoingQueue (fun _ _ _ => (none : Option String)) false
        [⟨"C1", "a".toList, none⟩, ⟨"C2", "b".toList, none⟩]
      = ([⟨"C2", "b".toList, none⟩], [], false) ∧
    (⟨"C1", "a".toList, none⟩ : OutboundItem) ∉
      (flushOutgoingQueue (fun _ _ _ => (none : Option String)) false
        [⟨"C1", "a".toList, none⟩, ⟨"C2", "b".toList, none⟩]).1 := by
  constructor
  · decide
  · decide

/-- C1 (amended).  A drain pass processes items strictly in enqueue order.
If every chunk send succeeds the queue drains to empty, with each item's
chunks (re-computed by `splitMessage` at drain time) posted in FIFO order.
If the first item's send fails, the pass aborts with the error: that item has
been removed from the queue and is NOT re-enqueued (it is dropped), while the
untouched remainder stays queued for a later pass.  The `flushing` re-entrancy
guard makes a concurrent second pass a no-op. -/
theorem flushOutgoingQueue_amended
    (post : String → List Char → Option String → Option String)
    (i : OutboundItem) (rest q : List OutboundItem) :
    ((sendChunksAcc post i.jid i.threadTs (splitMessage i.text)).2 = false →
      flushOutgoingQueue post false (i :: rest)
        = (rest, (sendChunksAcc post i.jid i.threadTs (splitMessage i.text)).1, false)) ∧
    ((∀ j ∈ q, ∀ ch ∈ splitMessage j.text, post j.jid ch j.threadTs ≠ none) →
      flushOutgoingQueue post false q
        = ([], (q.map fun j => (splitMessage j.text).map fun ch => (j.jid, ch)).flatten,
           true)) ∧
    flushOutgoingQueue post true q = (q, [], true) := by
  refine ⟨fun hfail => ?_, fun hok => ?_, rfl⟩
  · simp only [flushOutgoingQueue, Bool.false_or, List.isEmpty_cons, if_neg Bool.false_ne_true,
      flushLoop]
    rw [if_neg (by simp [hfail])]
    simp
  · cases q with
    | nil => rfl
    | cons a as =>
      simp only [flushOutgoingQueue, Bool.false_or, List.isEmpty_cons,
        if_neg Bool.false_ne_true]
      exact flushLoop_all_ok post (a :: as) [] hok

/-- C1 (witness for the amended theorem): at a concrete failing oracle the
failed head item is dropped and the tail is kept; at a concrete succeeding
oracle a two-item queue drains fully in FIFO order. -/
theorem flushOutgoingQueue_amended_witness :
    ((sendChunksAcc (fun _ _ _ => (none : Option String)) "C1" none
        (splitMessage "a".toList)).2 = false ∧
      flushOutgoingQueue (fun _ _ _ => (none : Option String)) false
          [⟨"C1", "a".toList, none⟩, ⟨"C2", "b".toList, none⟩]
        = ([⟨"C2", "b".toList, none⟩], [], false)) ∧
    flushOutgoingQueue (fun _ _ _ => (some "1" : Option String)) false
        [⟨"C1", "a".toList, none⟩, ⟨"C2", "b".toList, none⟩]
      = ([], [("C1", "a".toList), ("C2", "b".toList)], true) := by
  refine ⟨⟨by decide, ?_⟩, ?_⟩
  · have h := (flushOutgoingQueue_amended (fun _ _ _ => (none : Option String))
      ⟨"C1", "a".toList, none⟩ [⟨"C2", "b".toList, none⟩] []).1 (by decide)
    simpa using h
  · have h := (flushOutgoingQueue_amended (fun _ _ _ => (some "1" : Option String))
      ⟨"C1", "a".toList, none⟩ []
      [⟨"C1", "a".toList, none⟩, ⟨"C2", "b".toList, none⟩]).2.1
      (by intro j hj ch hch; simp)
    simpa using h

/-! ### C2: `splitMessage` loses a character on hard splits -/

/-- C2 (code bug).  The claim (and the spec's §8 property) says the chunks of
`splitMessage(T)` reconstruct `T` exactly.  For the 39002-character input
`'a' * 39002` (no newline anywhere) the code hard-splits at index 39000 and
`remaining.slice(splitIdx + 1)` skips the character at the split index: the
chunks are `['a'*39000, 'a']`, whose concatenation has 39001 characters —
character index 39000 of the input is silently lost. -/
theorem splitMessage_hard_split_loses_char :
    splitMessage (List.replicate 39002 'a') = [List.replicate 39000 'a', ['a']] ∧
    (splitMessage (List.replicate 39002 'a')).flatten = List.replicate 39001 'a' ∧
    (splitMessage (List.replicate 39002 'a')).flatten ≠ List.replicate 39002 'a' := by
  have h : splitMessage (List.replicate 39002 'a')
      = [List.replicate 39000 'a', ['a']] := by
    have := splitMessageAt_hard_split_drop 39000 (by norm_num)
    norm_num at this
    exact this
  have h2 : (splitMessage (List.replicate 39002 'a')).flatten
      = List.replicate 39001 'a' := by
    rw [h]
    show List.replicate 39000 'a' ++ (['a'] ++ []) = _
    rw [List.append_nil]
    have h3 : (39001 : Nat) = 39000 + 1 := by norm_num
    rw [h3, ← List.replicate_succ']
  refine ⟨h, h2, ?_⟩
  rw [h2]
  intro hcontra
  have hlen := congrArg List.length hcontra
  rw [List.length_replicate, List.length_replicate] at hlen
  omega

/-! ### C3: `sendMessage` enqueues instead of throwing -/

/-- C3.  `sendMessage` never throws: while disconnected the item
`(jid, text, threadTs)` is appended to the outbound queue as-is; while
connected, if any chunk send of the sequence fails, the ENTIRE logical message
(the full mention-resolved text, not just the failed chunk) is pushed onto the
queue as a single `OutboundItem`; and when such an item is later drained with
a working transport, its chunks are re-computed by `splitMessage` at drain
time and posted in order. -/
theorem sendMessage_enqueues_never_throws
    (post : String → List Char → Option String → Option String)
    (resolveM : List Char → List Char) (connected : Bool)
    (queue : List OutboundItem) (jid : String) (text : List Char)
    (tts : Option String) :
    (connected = false →
      sendMessage post resolveM connected queue jid text tts
        = ((false, queue ++ [⟨jid, text, tts⟩]), none)) ∧
    (connected = true →
      trySendChunks post jid tts (splitMessage (resolveM text)) none = none →
      sendMessage post resolveM connected queue jid text tts
        = ((true, queue ++ [⟨jid, resolveM text, tts⟩]), none)) ∧
    (∀ post2 : String → List Char → Option String → Option String,
      (∀ ch ∈ splitMessage (resolveM text), post2 jid ch tts ≠ none) →
      flushOutgoingQueue post2 false [⟨jid, resolveM text, tts⟩]
        = ([], (splitMessage (resolveM text)).map fun ch => (jid, ch), true)) := by
  refine ⟨fun hdisc => ?_, fun hconn hfail => ?_, fun post2 hok => ?_⟩
  · subst hdisc
    simp [sendMessage]
  · subst hconn
    simp only [sendMessage, Bool.not_true, if_neg Bool.false_ne_true]
    rw [hfail]
  · simp only [flushOutgoingQueue, Bool.false_or, List.isEmpty_cons,
      if_neg Bool.false_ne_true, flushLoop]
    rw [sendChunksAcc_all_ok post2 jid tts (splitMessage (resolveM text)) hok]
    simp [flushLoop]

/-- C3 (witness): at concrete inputs — disconnected enqueues the raw item; a
connected send whose transport always throws enqueues the full resolved text;
the drained item's chunks are re-split at drain time. -/
theorem sendMessage_enqueues_never_throws_witness :
    (sendMessage (fun _ _ _ => (none : Option String)) id false [] "C1" "hi".toList none
      = ((false, [⟨"C1", "hi".toList, none⟩]), none)) ∧
    (trySendChunks (fun _ _ _ => (none : Option String)) "C1" none
        (splitMessage (id "hi".toList)) none = none ∧
      sendMessage (fun _ _ _ => (none : Option String)) id true [] "C1" "hi".toList none
        = ((true, [⟨"C1", "hi".toList, none⟩]), none)) ∧
    flushOutgoingQueue (fun _ _ _ => (some "7" : Option String)) false
        [⟨"C1", "hi".toList, none⟩]
      = ([], [("C1", "hi".toList)], true) := by
  refine ⟨?_, ⟨by decide, ?_⟩, ?_⟩
  · have h := (sendMessage_enqueues_never_throws (fun _ _ _ => (none : Option String))
      id false [] "C1" "hi".toList none).1 rfl
    simpa using h
  · have h := (sendMessage_enqueues_never_throws (fun _ _ _ => (none : Option String))
      id true [] "C1" "hi".toList none).2.1 rfl (by decide)
    simpa using h
  · have h := (sendMessage_enqueues_never_throws (fun _ _ _ => (none : Option String))
      id true [] "C1" "hi".toList none).2.2 (fun _ _ _ => (some "7" : Option String))
      (by intro ch hch; simp)
    simpa using h

/-! ### C4: metadata side-channel vs. full delivery in `handleEvent` -/

/-- C4 (counterexample).  The claim says the metadata side-channel fires for
EVERY inbound new-message event carrying a conversation id.  But an
`app_mention` event whose text is exactly the bot mention (stripped to empty)
with no attachments returns at slack.ts:264, BEFORE `onChatMetadata` fires:
neither callback runs. -/
theorem handleEvent_empty_mention_skips_metadata :
    handleEvent (fun _ => true) (fun _ => ⟨"n", ""⟩) (fun s => s) (fun _ => none)
        "U1" "C1" "U2" "<@U1>".toList "100.1" true none []
      = ⟨false, none⟩ := by decide

/-- C4 (amended).  For every inbound new-message event that still has text
after self-mention stripping, or has attachments, the metadata side-channel
fires regardless of registration, and the full message callback fires exactly
when the conversation is registered.  An event left with neither text nor
attachments is dropped entirely — neither callback fires. -/
theorem handleEvent_metadata_and_delivery
    (registered : String → Bool) (userInfo : String → UserInfo)
    (toIso : String → String) (fetch' : String → Option Nat)
    (bot channel userId : String) (raw : List Char) (ts : String)
    (isMention : Bool) (tts : Option String) (files : List SlackFile) :
    (strippedText bot isMention raw ≠ [] ∨ files ≠ [] →
      (handleEvent registered userInfo toIso fetch' bot channel userId raw ts
          isMention tts files).metadataFired = true ∧
      ((handleEvent registered userInfo toIso fetch' bot channel userId raw ts
          isMention tts files).message.isSome ↔ registered channel = true)) ∧
    (strippedText bot isMention raw = [] ∧ files = [] →
      handleEvent registered userInfo toIso fetch' bot channel userId raw ts
          isMention tts files = ⟨false, none⟩) := by
  constructor
  · intro h
    have hguard : ((strippedText bot isMention raw).isEmpty && files.isEmpty) = false := by
      rcases h with h | h
      · simp [List.isEmpty_iff, h]
      · simp [List.isEmpty_iff, h]
    by_cases hreg : registered channel
    · simp [handleEvent, hguard, hreg]
    · simp [handleEvent, hguard, hreg]
  · intro ⟨h1, h2⟩
    simp [handleEvent, h1, h2]

/-- C4 (witness for the amended theorem): a registered-conversation message
with surviving text fires metadata and is delivered; the same event in an
unregistered conversation still fires metadata but is not delivered. -/
theorem handleEvent_metadata_and_delivery_witness :
    (strippedText "U1" true "<@U1> hello".toList ≠ [] ∧
      (handleEvent (fun _ => true) (fun _ => ⟨"n", ""⟩) (fun s => s) (fun _ => none)
          "U1" "C1" "U2" "<@U1> hello".toList "100.1" true none []).metadataFired = true ∧
      (handleEvent (fun _ => true) (fun _ => ⟨"n", ""⟩) (fun s => s) (fun _ => none)
          "U1" "C1" "U2" "<@U1> hello".toList "100.1" true none []).message.isSome = true) ∧
    ((handleEvent (fun _ => false) (fun _ => ⟨"n", ""⟩) (fun s => s) (fun _ => none)
          "U1" "C1" "U2" "<@U1> hello".toList "100.1" true none []).metadataFired = true ∧
      (handleEvent (fun _ => false) (fun _ => ⟨"n", ""⟩) (fun s => s) (fun _ => none)
          "U1" "C1" "U2" "<@U1> hello".toList "100.1" true none []).message.isSome = false) := by
  have ht : strippedText "U1" true "<@U1> hello".toList ≠ [] := by decide
  refine ⟨⟨ht, ?_, ?_⟩, ?_, ?_⟩
  · exact ((handleEvent_metadata_and_delivery (fun _ => true) (fun _ => ⟨"n", ""⟩)
      (fun s => s) (fun _ => none) "U1" "C1" "U2" "<@U1> hello".toList "100.1" true none
      []).1 (Or.inl ht)).1
  · exact ((handleEvent_metadata_and_delivery (fun _ => true) (fun _ => ⟨"n", ""⟩)
      (fun s => s) (fun _ => none) "U1" "C1" "U2" "<@U1> hello".toList "100.1" true none
      []).1 (Or.inl ht)).2.mpr rfl
  · exact ((handleEvent_metadata_and_delivery (fun _ => false) (fun _ => ⟨"n", ""⟩)
      (fun s => s) (fun _ => none) "U1" "C1" "U2" "<@U1> hello".toList "100.1" true none
      []).1 (Or.inl ht)).1
  · have h := ((handleEvent_metadata_and_delivery (fun _ => false) (fun _ => ⟨"n", ""⟩)
      (fun s => s) (fun _ => none) "U1" "C1" "U2" "<@U1> hello".toList "100.1" true none
      []).1 (Or.inl ht)).2
    simpa using h

/-! ### C8: per-file isolation of `downloadFiles` -/

lemma downloadFiles_append (fetch' : String → Option Nat) (channel ts : String)
    (a b : List SlackFile) :
    downloadFiles fetch' channel ts (a ++ b)
      = downloadFiles fetch' channel ts a ++ downloadFiles fetch' channel ts b := by
  induction a with
  | nil => simp [downloadFiles]
  | cons f rest ih =>
    simp only [List.cons_append, downloadFiles]
    by_cases h1 : strFalsy (fileUrl f) = true
    · simp [h1, ih]
    · simp only [Bool.not_eq_true] at h1
      by_cases h2 : MAX_FILE_SIZE < f.size.getD 0
      · simp [h1, h2, ih]
      · cases h3 : fetch' ((fileUrl f).getD "") with
        | none => simp [h1, h2, h3, ih]
        | some n => simp [h1, h2, h3, ih]

lemma handleEvent_delivers (registered : String → Bool) (userInfo : String → UserInfo)
    (toIso : String → String) (fetch' : String → Option Nat)
    (bot channel userId : String) (raw : List Char) (ts : String) (isMention : Bool)
    (tts : Option String) (files : List SlackFile)
    (hreg : registered channel = true)
    (h : strippedText bot isMention raw ≠ [] ∨ files ≠ []) :
    (handleEvent registered userInfo toIso fetch' bot channel userId raw ts
        isMention tts files).message.isSome = true := by
  have hguard : ((strippedText bot isMention raw).isEmpty && files.isEmpty) = false := by
    rcases h with h | h
    · simp [List.isEmpty_iff, h]
    · simp [List.isEmpty_iff, h]
  simp [handleEvent, hguard, hreg]

/-- C8.  `downloadFiles` treats every file reference independently and never
throws for a per-file failure: the result for `fs1 ++ [f] ++ fs2` is the
concatenation of the independent per-list results; a reference with no
retrievable URL is omitted; a reference whose declared size exceeds the
20 MiB cap is omitted; a reference whose download fails is omitted; every
other reference yields its attachment (sized by the retrieved byte count).
Moreover the enclosing message is still delivered for a registered
conversation no matter what the download oracle does. -/
theorem downloadFiles_per_file_isolation (fetch' : String → Option Nat)
    (channel ts : String) (fs1 fs2 : List SlackFile) (f : SlackFile) :
    downloadFiles fetch' channel ts (fs1 ++ f :: fs2)
      = downloadFiles fetch' channel ts fs1 ++ downloadFiles fetch' channel ts [f]
        ++ downloadFiles fetch' channel ts fs2 ∧
    (strFalsy (fileUrl f) = true → downloadFiles fetch' channel ts [f] = []) ∧
    (MAX_FILE_SIZE < f.size.getD 0 → downloadFiles fetch' channel ts [f] = []) ∧
    (strFalsy (fileUrl f) = false → f.size.getD 0 ≤ MAX_FILE_SIZE →
      fetch' ((fileUrl f).getD "") = none → downloadFiles fetch' channel ts [f] = []) ∧
    (∀ n, strFalsy (fileUrl f) = false → f.size.getD 0 ≤ MAX_FILE_SIZE →
      fetch' ((fileUrl f).getD "") = some n →
      downloadFiles fetch' channel ts [f]
        = [⟨fileName f, jsGetD f.mimetype "application/octet-stream", n,
            "data/files/" ++ channel ++ "/" ++ safeTs ts ++ "/" ++ fileName f⟩]) ∧
    (∀ (registered : String → Bool) (userInfo : String → UserInfo)
        (toIso : String → String) (userId bot : String) (raw : List Char)
        (isMention : Bool) (tts : Option String),
      registered channel = true →
      strippedText bot isMention raw ≠ [] ∨ (fs1 ++ f :: fs2) ≠ [] →
      (handleEvent registered userInfo toIso fetch' bot channel userId raw ts
          isMention tts (fs1 ++ f :: fs2)).message.isSome = true) := by
  refine ⟨?_, fun h1 => ?_, fun h2 => ?_, fun h1 h2 h3 => ?_, fun n h1 h2 h3 => ?_,
    fun registered userInfo toIso userId bot raw isMention tts hreg hs => ?_⟩
  · have h : f :: fs2 = [f] ++ fs2 := rfl
    rw [h, downloadFiles_append, downloadFiles_append]
    exact (List.append_assoc _ _ _).symm
  · simp [downloadFiles, h1]
  · have h1 : strFalsy (fileUrl f) = true ∨ strFalsy (fileUrl f) = false := by
      cases strFalsy (fileUrl f) <;> simp
    rcases h1 with h1 | h1
    · simp [downloadFiles, h1]
    · simp [downloadFiles, h1, h2]
  · simp [downloadFiles, h1, Nat.not_lt.mpr h2, h3]
  · simp [downloadFiles, h1, Nat.not_lt.mpr h2, h3]
  · exact handleEvent_delivers registered userInfo toIso fetch' bot channel userId raw ts
      isMention tts (fs1 ++ f :: fs2) hreg hs

/-- C8 (witness): a concrete three-file batch — no-URL reference skipped,
oversized reference skipped, failing download omitted — while a good file in
the same batch is still stored. -/
theorem downloadFiles_per_file_isolation_witness :
    downloadFiles (fun u => if u = "ok-url" then some 5 else none) "C1" "100.1"
        [⟨"F1", some "a.txt", none, none, some 10, none⟩,
         ⟨"F2", some "b.txt", some "big-url", none, some 30000000, none⟩,
         ⟨"F3", some "c.txt", some "bad-url", none, some 10, none⟩,
         ⟨"F4", some "d.txt", some "ok-url", none, some 10, some "text/plain"⟩]
      = [⟨"d.txt", "text/plain", 5, "data/files/C1/100-1/d.txt"⟩] ∧
    downloadFiles (fun u => if u = "ok-url" then some 5 else none) "C1" "100.1"
        [⟨"F2", some "b.txt", some "big-url", none, some 30000000, none⟩] = [] ∧
    (handleEvent (fun _ => true) (fun _ => ⟨"n", ""⟩) (fun s => s)
        (fun u => if u = "ok-url" then some 5 else none) "U1" "C1" "U2" [] "100.1"
        false none
        [⟨"F3", some "c.txt", some "bad-url", none, some 10, none⟩]).message.isSome
      = true := by
  refine ⟨by decide, ?_, ?_⟩
  · exact (downloadFiles_per_file_isolation (fun u => if u = "ok-url" then some 5 else none)
      "C1" "100.1" [] [] ⟨"F2", some "b.txt", some "big-url", none, some 30000000,
      none⟩).2.2.1 (by decide)
  · exact (downloadFiles_per_file_isolation (fun u => if u = "ok-url" then some 5 else none)
      "C1" "100.1" [] [] ⟨"F3", some "c.txt", some "bad-url", none, some 10,
      none⟩).2.2.2.2.2 (fun _ => true) (fun _ => ⟨"n", ""⟩) (fun s => s) "U2" "U1" []
      false none rfl (Or.inr (by decide))

/-! ### C6/C7: the `reaction_added` handler -/

lemma lookupReactedViaApi_isSome_evidence
    (histTop : String → String → Except Unit (Option HistMsg)) (bot channel ts : String)
    (p : List Char × Option String)
    (h : lookupReactedViaApi histTop bot channel ts = some p) :
    ∃ m, histTop channel ts = Except.ok (some m) ∧ m.user = some bot := by
  unfold lookupReactedViaApi at h
  split at h
  · exact absurd h (by simp)
  · exact absurd h (by simp)
  · next m heq =>
    by_cases hu : m.user = some bot
    · exact ⟨m, heq, hu⟩
    · rw [if_pos hu] at h
      exact absurd h (by simp)

lemma resolveReacted_isSome_evidence (lookup : Option (String → String → Option DbMsg))
    (histTop : String → String → Except Unit (Option HistMsg)) (bot channel ts : String)
    (p : List Char × Option String)
    (h : resolveReacted lookup histTop bot channel ts = some p) :
    (∃ f db, lookup = some f ∧ f channel ts = some db ∧ db.is_bot_message = true) ∨
    (∃ m, histTop channel ts = Except.ok (some m) ∧ m.user = some bot) := by
  cases lookup with
  | none =>
    unfold resolveReacted at h
    exact Or.inr (lookupReactedViaApi_isSome_evidence histTop bot channel ts p h)
  | some f =>
    unfold resolveReacted at h
    dsimp only at h
    cases hf : f channel ts with
    | none =>
      rw [hf] at h
      dsimp only at h
      exact Or.inr (lookupReactedViaApi_isSome_evidence histTop bot channel ts p h)
    | some db =>
      rw [hf] at h
      dsimp only at h
      by_cases hb : db.is_bot_message = true
      · exact Or.inl ⟨f, db, rfl, hf, hb⟩
      · rw [if_pos (by simp [hb])] at h
        exact absurd h (by simp)

/-- C6.  A `reaction_added` event yields a `CanonicalMessage` only when the
conversation is registered AND the reacted-to message is bot-authored
according to the source consulted: either the local DB lookup found it with
`is_bot_message`, or the Slack-history fallback returned a message authored by
the bot user. -/
theorem reaction_added_requires_registered_bot_message
    (registered : String → Bool) (lookup : Option (String → String → Option DbMsg))
    (histTop : String → String → Except Unit (Option HistMsg))
    (userInfo : String → UserInfo) (toIso : String → String) (bot : String)
    (ev : ReactionEvent) (cm : NewMessage)
    (h : reaction_added registered lookup histTop userInfo toIso bot ev = some cm) :
    registered ev.channel = true ∧
    ((∃ f db, lookup = some f ∧ f ev.channel ev.ts = some db ∧ db.is_bot_message = true) ∨
     (∃ m, histTop ev.channel ev.ts = Except.ok (some m) ∧ m.user = some bot)) := by
  unfold reaction_added at h
  by_cases h1 : (strFalsy ev.user || ev.user == some bot) = true
  · rw [if_pos h1] at h; exact absurd h (by simp)
  · rw [if_neg h1] at h
    by_cases h2 : ev.itemType = "message"
    · rw [if_neg (by simp [h2])] at h
      by_cases h3 : registered ev.channel = true
      · rw [if_neg (by simp [h3])] at h
        cases hr : resolveReacted lookup histTop bot ev.channel ev.ts with
        | none => rw [hr] at h; exact absurd h (by simp)
        | some p =>
          exact ⟨h3, resolveReacted_isSome_evidence lookup histTop bot ev.channel ev.ts p hr⟩
      · rw [if_pos (by simp [Bool.not_eq_true] at h3 ⊢; exact h3)] at h
        exact absurd h (by simp)
    · rw [if_pos h2] at h
      exact absurd h (by simp)

/-- C6 (witness): a reaction in a registered conversation on a DB-stored
bot message produces a message; the theorem's conclusion holds there. -/
theorem reaction_added_requires_registered_bot_message_witness :
    reaction_added (fun _ => true) (some fun _ _ => some ⟨"hello".toList, none, true⟩)
        (fun _ _ => Except.error ()) (fun _ => ⟨"Bob", ""⟩) (fun s => s) "U1"
        ⟨some "U2", "message", "C1", "100.1", "up", "200.1"⟩
      = some
        { id := "reaction-200.1", chat_jid := "C1", sender := "U2", sender_name := "Bob",
          sender_tz := none, content := reactionContent "up" "hello".toList,
          timestamp := "200.1", is_from_me := false, is_bot_message := false,
          thread_ts := some "100.1", is_reaction := true } ∧
    (fun _ : String => true) "C1" = true := by
  constructor
  · decide
  · exact (reaction_added_requires_registered_bot_message (fun _ => true)
      (some fun _ _ => some ⟨"hello".toList, none, true⟩) (fun _ _ => Except.error ())
      (fun _ => ⟨"Bob", ""⟩) (fun s => s) "U1"
      ⟨some "U2", "message", "C1", "100.1", "up", "200.1"⟩
      { id := "reaction-200.1", chat_jid := "C1", sender := "U2", sender_name := "Bob",
        sender_tz := none, content := reactionContent "up" "hello".toList,
        timestamp := "200.1", is_from_me := false, is_bot_message := false,
        thread_ts := some "100.1", is_reaction := true } (by decide)).1

/-- C7.  Every `CanonicalMessage` synthesized for a reaction has
`is_reaction = true`; its content embeds the reaction emoji and a snippet of
the reacted-to content that is truncated to exactly 200 characters with an
ellipsis marker appended exactly when the original exceeds 200 characters;
and its thread key is the resolved parent thread, defaulting to the
reacted-to message's own id when no parent thread was resolved. -/
theorem reaction_added_content_shape
    (registered : String → Bool) (lookup : Option (String → String → Option DbMsg))
    (histTop : String → String → Except Unit (Option HistMsg))
    (userInfo : String → UserInfo) (toIso : String → String) (bot : String)
    (ev : ReactionEvent) (cm : NewMessage)
    (h : reaction_added registered lookup histTop userInfo toIso bot ev = some cm) :
    cm.is_reaction = true ∧
    ∃ rc tts, resolveReacted lookup histTop bot ev.channel ev.ts = some (rc, tts) ∧
      cm.content = reactionContent ev.reaction rc ∧
      cm.thread_ts = some (tts.getD ev.ts) ∧
      (tts = none → cm.thread_ts = some ev.ts) ∧
      (rc.length ≤ 200 → rc ≠ [] →
        cm.content = "[reacted with :".toList ++ ev.reaction.toList ++ ": to: ".toList
          ++ ['"'] ++ rc ++ ['"', ']']) ∧
      (200 < rc.length →
        cm.content = "[reacted with :".toList ++ ev.reaction.toList ++ ": to: ".toList
          ++ ['"'] ++ (rc.take 200 ++ "...".toList) ++ ['"', ']'] ∧
        (rc.take 200).length = 200) := by
  unfold reaction_added at h
  by_cases h1 : (strFalsy ev.user || ev.user == some bot) = true
  · rw [if_pos h1] at h; exact absurd h (by simp)
  · rw [if_neg h1] at h
    by_cases h2 : ev.itemType = "message"
    · rw [if_neg (by simp [h2])] at h
      by_cases h3 : registered ev.channel = true
      · rw [if_neg (by simp [h3])] at h
        cases hr : resolveReacted lookup histTop bot ev.channel ev.ts with
        | none => rw [hr] at h; exact absurd h (by simp)
        | some p =>
          rw [hr] at h
          dsimp only at h
          simp only [Option.some_inj] at h
          subst h
          refine ⟨rfl, p.1, p.2, ?_, rfl, rfl, fun hn => ?_, fun hle hne => ?_,
            fun hgt => ⟨?_, ?_⟩⟩
          · rfl
          · show some (p.2.getD ev.ts) = some ev.ts
            rw [hn]
            rfl
          · show reactionContent ev.reaction p.1 = _
            have hsnip : reactionSnippet p.1 = p.1 := by
              unfold reactionSnippet
              rw [if_neg (by omega)]
            unfold reactionContent
            rw [hsnip, if_pos hne]
          · show reactionContent ev.reaction p.1 = _
            have hsnip : reactionSnippet p.1 = p.1.take 200 ++ "...".toList := by
              unfold reactionSnippet
              rw [if_pos hgt]
            unfold reactionContent
            rw [hsnip]
            rw [if_pos (by simp)]
          · rw [List.length_take]
            omega
      · rw [if_pos (by simp [Bool.not_eq_true] at h3 ⊢; exact h3)] at h
        exact absurd h (by simp)
    · rw [if_pos h2] at h
      exact absurd h (by simp)

/-- C7 (witness): a concrete reaction on a short bot message — flag set,
content embeds the emoji and the un-truncated snippet, thread key defaults to
the reacted-to id. -/
theorem reaction_added_content_shape_witness :
    reaction_added (fun _ => true) (some fun _ _ => some ⟨"hi".toList, none, true⟩)
        (fun _ _ => Except.error ()) (fun _ => ⟨"Ann", ""⟩) (fun s => s) "U1"
        ⟨some "U3", "message", "C2", "300.1", "eyes", "400.1"⟩
      = some
        { id := "reaction-400.1", chat_jid := "C2", sender := "U3", sender_name := "Ann",
          sender_tz := none, content := reactionContent "eyes" "hi".toList,
          timestamp := "400.1", is_from_me := false, is_bot_message := false,
          thread_ts := some "300.1", is_reaction := true } ∧
    Option.map (fun m => m.is_reaction)
      (reaction_added (fun _ => true) (some fun _ _ => some ⟨"hi".toList, none, true⟩)
        (fun _ _ => Except.error ()) (fun _ => ⟨"Ann", ""⟩) (fun s => s) "U1"
        ⟨some "U3", "message", "C2", "300.1", "eyes", "400.1"⟩)
      = some true := by
  have hres : reaction_added (fun _ => true) (some fun _ _ => some ⟨"hi".toList, none, true⟩)
      (fun _ _ => Except.error ()) (fun _ => ⟨"Ann", ""⟩) (fun s => s) "U1"
      ⟨some "U3", "message", "C2", "300.1", "eyes", "400.1"⟩
      = some
        { id := "reaction-400.1", chat_jid := "C2", sender := "U3", sender_name := "Ann",
          sender_tz := none, content := reactionContent "eyes" "hi".toList,
          timestamp := "400.1", is_from_me := false, is_bot_message := false,
          thread_ts := some "300.1", is_reaction := true } := by decide
  refine ⟨hres, ?_⟩
  have h := (reaction_added_content_shape (fun _ => true)
    (some fun _ _ => some ⟨"hi".toList, none, true⟩) (fun _ _ => Except.error ())
    (fun _ => ⟨"Ann", ""⟩) (fun s => s) "U1"
    ⟨some "U3", "message", "C2", "300.1", "eyes", "400.1"⟩ _ hres).1
  rw [hres, Option.map_some']

/-! ### C5: catch-up reconciliation scenario -/

/-- Strict lexicographic order on character lists; on equal-length decimal
timestamp strings (Slack `ts` values of one channel's history) it coincides
with the numeric order `parseFloat` would give. -/
def strLex : List Char → List Char → Bool
  | [], [] => false
  | [], _ :: _ => true
  | _ :: _, [] => false
  | a :: as, b :: bs => if a = b then strLex as bs else decide (a < b)

lemma processMsg_good (userInfo : String → UserInfo) (toIso : String → String)
    (bot : String) (repl : String → String → String → Except Unit (List HistMsg))
    (jid oldest : String) (acc : CatchUpAcc) (m : HistMsg) (t : String)
    (hbot : m.bot_id = none) (hsub : m.subtype = none) (hts : m.ts = some t)
    (htne : t ≠ "") (hu : strFalsy m.user = false)
    (hrepl : repl jid t oldest = Except.ok []) :
    processMsg userInfo toIso bot repl jid oldest acc m
      = { acc with
          count := acc.count + 1
          metadata := acc.metadata ++ [(jid, toIso t)]
          delivered := acc.delivered ++ [(jid, mkCatchUpMsg userInfo toIso bot jid m)] } := by
  have hb' : strFalsy m.bot_id = true := by rw [hbot]; rfl
  have hs' : strFalsy m.subtype = true := by rw [hsub]; rfl
  have ht' : strFalsy m.ts = false := by rw [hts]; simp [strFalsy, htne]
  have hskip : skipHistMsg m = false := by
    simp [skipHistMsg, hb', hs', ht', hu]
  unfold processMsg
  rw [hskip, if_neg Bool.false_ne_true]
  by_cases hrc : 0 < m.reply_count
  · rw [if_pos hrc, hts]
    simp only [Option.getD_some]
    rw [hrepl]
    dsimp only
    rw [List.foldl_nil]
  · rw [if_neg hrc, hts]
    simp only [Option.getD_some]

/-- C5.  A reconciliation pass over one conversation whose history (strictly
newer than `lastKnownTimestamp = t0`, boundary excluded, as delivered by the
`inclusive: false` history API) holds exactly three non-bot, non-administrative
messages at `t1 < t2 < t3` delivers exactly those three via `onMessage`, in
increasing timestamp order (the API returns them newest-first; the code
reverses), counts 3, and fires metadata in the same order.  Each delivered
message's thread key follows the claim's rule (verified against the
claim-worded `claimThreadKey` for every message whose wire `thread_ts` is not
the degenerate empty string). -/
theorem catchUpMessages_three_new (userInfo : String → UserInfo)
    (toIso : String → String) (bot : String)
    (hist : String → String → Except Unit (List HistMsg))
    (repl : String → String → String → Except Unit (List HistMsg)) (fb : String)
    (jid t0 t1 t2 t3 : String) (m1 m2 m3 : HistMsg)
    (ht0 : t0 ≠ "") (hh : hist jid t0 = Except.ok [m3, m2, m1])
    (hb1 : m1.bot_id = none) (hs1 : m1.subtype = none) (hts1 : m1.ts = some t1)
    (hn1 : t1 ≠ "") (hu1 : strFalsy m1.user = false)
    (hb2 : m2.bot_id = none) (hs2 : m2.subtype = none) (hts2 : m2.ts = some t2)
    (hn2 : t2 ≠ "") (hu2 : strFalsy m2.user = false)
    (hb3 : m3.bot_id = none) (hs3 : m3.subtype = none) (hts3 : m3.ts = some t3)
    (hn3 : t3 ≠ "") (hu3 : strFalsy m3.user = false)
    (hr : ∀ t, repl jid t t0 = Except.ok [])
    (_ho12 : strLex t1.toList t2.toList = true)
    (_ho23 : strLex t2.toList t3.toList = true) :
    catchUpMessages userInfo toIso bot hist repl fb [(jid, some t0)]
      = ⟨3, [(jid, toIso t1), (jid, toIso t2), (jid, toIso t3)],
          [(jid, mkCatchUpMsg userInfo toIso bot jid m1),
           (jid, mkCatchUpMsg userInfo toIso bot jid m2),
           (jid, mkCatchUpMsg userInfo toIso bot jid m3)]⟩ ∧
    (∀ m ∈ [m1, m2, m3], m.thread_ts ≠ some "" →
      (mkCatchUpMsg userInfo toIso bot jid m).thread_ts = claimThreadKey bot m) := by
  constructor
  · unfold catchUpMessages
    simp only [List.foldl_cons, List.foldl_nil]
    unfold catchUpChannel
    dsimp only
    have holdest : oldestOf (some t0) fb = t0 := by
      simp [oldestOf, strFalsy, ht0]
    rw [holdest, hh]
    dsimp only
    rw [show ([m3, m2, m1] : List HistMsg).reverse = [m1, m2, m3] from rfl]
    simp only [List.foldl_cons, List.foldl_nil]
    rw [processMsg_good userInfo toIso bot repl jid t0 _ m1 t1 hb1 hs1 hts1 hn1 hu1 (hr t1)]
    rw [processMsg_good userInfo toIso bot repl jid t0 _ m2 t2 hb2 hs2 hts2 hn2 hu2 (hr t2)]
    rw [processMsg_good userInfo toIso bot repl jid t0 _ m3 t3 hb3 hs3 hts3 hn3 hu3 (hr t3)]
    simp
  · intro m _ hne
    cases hmt : m.thread_ts with
    | none =>
      by_cases hc : containsSeq (mentionPat bot) (((m.text).getD "").toList) = true
      · simp [mkCatchUpMsg, claimThreadKey, strFalsy, hmt, hc]
      · by_cases hrc : 0 < m.reply_count
        · simp [mkCatchUpMsg, claimThreadKey, strFalsy, hmt, hc, hrc]
        · simp [mkCatchUpMsg, claimThreadKey, strFalsy, hmt, hc, hrc]
    | some p =>
      have hp : p ≠ "" := fun hcontra => hne (by rw [hmt, hcontra])
      by_cases hpt : (some p : Option String) = m.ts
      · by_cases hc : containsSeq (mentionPat bot) (((m.text).getD "").toList) = true
        · simp [mkCatchUpMsg, claimThreadKey, strFalsy, hmt, hp, ← hpt, hc]
        · by_cases hrc : 0 < m.reply_count
          · simp [mkCatchUpMsg, claimThreadKey, strFalsy, hmt, hp, ← hpt, hc, hrc]
          · simp [mkCatchUpMsg, claimThreadKey, strFalsy, hmt, hp, ← hpt, hc, hrc]
      · simp [mkCatchUpMsg, claimThreadKey, strFalsy, hmt, hp, hpt]

/-- C5 (witness): a concrete conversation with boundary `"100"` and three new
messages `"101" < "102" < "103"` — a thread reply, a bot mention, and a plain
message — recovered in increasing order with the rule-derived thread keys. -/
theorem catchUpMessages_three_new_witness :
    (∀ t : String, (fun _ _ _ => (Except.ok [] : Except Unit (List HistMsg))) "C1" t "100"
      = Except.ok []) ∧
    catchUpMessages (fun _ => ⟨"n", ""⟩) (fun s => s) "U1"
        (fun _ _ => Except.ok
          [⟨some "103", some "U2", some "three", none, none, none, 0⟩,
           ⟨some "102", some "U2", some "<@U1> two", none, none, none, 0⟩,
           ⟨some "101", some "U2", some "one", none, none, some "100", 2⟩])
        (fun _ _ _ => Except.ok []) "fb" [("C1", some "100")]
      = ⟨3, [("C1", "101"), ("C1", "102"), ("C1", "103")],
          [("C1", mkCatchUpMsg (fun _ => ⟨"n", ""⟩) (fun s => s) "U1" "C1"
             ⟨some "101", some "U2", some "one", none, none, some "100", 2⟩),
           ("C1", mkCatchUpMsg (fun _ => ⟨"n", ""⟩) (fun s => s) "U1" "C1"
             ⟨some "102", some "U2", some "<@U1> two", none, none, none, 0⟩),
           ("C1", mkCatchUpMsg (fun _ => ⟨"n", ""⟩) (fun s => s) "U1" "C1"
             ⟨some "103", some "U2", some "three", none, none, none, 0⟩)]⟩ := by
  refine ⟨fun t => rfl, ?_⟩
  exact (catchUpMessages_three_new (fun _ => ⟨"n", ""⟩) (fun s => s) "U1"
    (fun _ _ => Except.ok
      [⟨some "103", some "U2", some "three", none, none, none, 0⟩,
       ⟨some "102", some "U2", some "<@U1> two", none, none, none, 0⟩,
       ⟨some "101", some "U2", some "one", none, none, some "100", 2⟩])
    (fun _ _ _ => Except.ok []) "fb" "C1" "100" "101" "102" "103"
    ⟨some "101", some "U2", some "one", none, none, some "100", 2⟩
    ⟨some "102", some "U2", some "<@U1> two", none, none, none, 0⟩
    ⟨some "103", some "U2", some "three", none, none, none, 0⟩
    (by decide) rfl rfl rfl rfl (by decide) (by decide) rfl rfl rfl (by decide)
    (by decide) rfl rfl rfl (by decide) (by decide) (fun t => rfl)
    (by decide) (by decide)).1

/-! ### C9: error boundaries of the public operations -/

/-- C9 (counterexample).  The claim says no public operation other than
`connect` ever raises past its own boundary.  But `addReaction`,
`removeReaction` and `sendFile` each wrap their API call in a `try`/`catch`
that logs and RE-THROWS (slack.ts lines 697, 707, 737): with a failing
transport the error propagates to the caller. -/
theorem addReaction_rethrows :
    addReaction (Except.error ()) = Except.error () ∧
    removeReaction (Except.error ()) = Except.error () ∧
    sendFile (Except.error ()) = Except.error () :=
  ⟨rfl, rfl, rfl⟩

/-- C9 (amended).  `connect`'s credential gate throws exactly when a required
token (after the `process.env || .env` fallback) is missing or empty.
`sendMessage` absorbs a failed send into the retry queue, a failed
conversation during `catchUpMessages` is skipped without affecting the other
conversations, and `syncChannelMetadata` absorbs its failures entirely; but
`addReaction`, `removeReaction` and `sendFile` log and RE-THROW transport
failures to the caller. -/
theorem adapter_error_boundaries (pb eb pa ea : Option String)
    (r1 r2 r3 : Except Unit Unit)
    (post : String → List Char → Option String → Option String)
    (resolveM : List Char → List Char) (q : List OutboundItem) (jid : String)
    (text : List Char) (tts : Option String) (userInfo : String → UserInfo)
    (toIso : String → String) (bot : String)
    (hist : String → String → Except Unit (List HistMsg))
    (repl : String → String → String → Except Unit (List HistMsg)) (fb ch : String)
    (lt : Option String) (rest : List (String × Option String)) :
    ((∃ msg, connectCredCheck pb eb pa ea = Except.error msg) ↔
      (strFalsy (jsOr pb eb) = true ∨ strFalsy (jsOr pa ea) = true)) ∧
    (addReaction r1 = r1 ∧ removeReaction r2 = r2 ∧ sendFile r3 = r3) ∧
    (trySendChunks post jid tts (splitMessage (resolveM text)) none = none →
      sendMessage post resolveM true q jid text tts
        = ((true, q ++ [⟨jid, resolveM text, tts⟩]), none)) ∧
    (∀ e, hist ch (oldestOf lt fb) = Except.error e →
      catchUpMessages userInfo toIso bot hist repl fb ((ch, lt) :: rest)
        = catchUpMessages userInfo toIso bot hist repl fb rest) ∧
    syncChannelMetadata (Except.error ()) = [] := by
  refine ⟨?_, ⟨?_, ?_, ?_⟩, fun hfail => ?_, fun e he => ?_, rfl⟩
  · constructor
    · intro ⟨msg, hmsg⟩
      by_cases hc : (strFalsy (jsOr pb eb) || strFalsy (jsOr pa ea)) = true
      · simpa using hc
      · unfold connectCredCheck at hmsg
        rw [if_neg (by simpa using hc)] at hmsg
        exact absurd hmsg (by simp)
    · intro hc
      refine ⟨"Missing SLACK_BOT_TOKEN or SLACK_APP_TOKEN. Add them to .env and re-run.", ?_⟩
      unfold connectCredCheck
      rw [if_pos (by simpa using hc)]
  · cases r1 with
    | ok v => rfl
    | error e => rfl
  · cases r2 with
    | ok v => rfl
    | error e => rfl
  · cases r3 with
    | ok v => rfl
    | error e => rfl
  · simp only [sendMessage, Bool.not_true, if_neg Bool.false_ne_true]
    rw [hfail]
  · unfold catchUpMessages
    simp only [List.foldl_cons]
    unfold catchUpChannel
    dsimp only
    rw [he]

/-- C9 (witness for the amended theorem): missing tokens make the credential
gate throw; present tokens do not; a concrete failed send enqueues; a
concrete failed conversation is skipped while the rest are reconciled. -/
theorem adapter_error_boundaries_witness :
    (∃ msg, connectCredCheck none none (some "xapp") none = Except.error msg) ∧
    (trySendChunks (fun _ _ _ => (none : Option String)) "C9W" none
        (splitMessage (id "x".toList)) none = none ∧
      sendMessage (fun _ _ _ => (none : Option String)) id true [] "C9W" "x".toList none
        = ((true, [⟨"C9W", "x".toList, none⟩]), none)) ∧
    ((fun _ _ => (Except.error () : Except Unit (List HistMsg))) "CBAD"
        (oldestOf none "fbw") = Except.error () ∧
      catchUpMessages (fun _ => ⟨"n", ""⟩) (fun s => s) "U1"
          (fun _ _ => Except.error ()) (fun _ _ _ => Except.ok []) "fbw"
          [("CBAD", none)]
        = catchUpMessages (fun _ => ⟨"n", ""⟩) (fun s => s) "U1"
            (fun _ _ => Except.error ()) (fun _ _ _ => Except.ok []) "fbw" []) := by
  refine ⟨?_, ⟨by decide, ?_⟩, rfl, ?_⟩
  · exact (adapter_error_boundaries none none (some "xapp") none (Except.ok ())
      (Except.ok ()) (Except.ok ()) (fun _ _ _ => none) id [] "C9W" "x".toList none
      (fun _ => ⟨"n", ""⟩) (fun s => s) "U1" (fun _ _ => Except.error ())
      (fun _ _ _ => Except.ok []) "fbw" "CBAD" none []).1.mpr (Or.inl rfl)
  · exact (adapter_error_boundaries none none (some "xapp") none (Except.ok ())
      (Except.ok ()) (Except.ok ()) (fun _ _ _ => none) id [] "C9W" "x".toList none
      (fun _ => ⟨"n", ""⟩) (fun s => s) "U1" (fun _ _ => Except.error ())
      (fun _ _ _ => Except.ok []) "fbw" "CBAD" none []).2.2.1 (by decide)
  · exact (adapter_error_boundaries none none (some "xapp") none (Except.ok ())
      (Except.ok ()) (Except.ok ()) (fun _ _ _ => none) id [] "C9W" "x".toList none
      (fun _ => ⟨"n", ""⟩) (fun s => s) "U1" (fun _ _ => Except.error ())
      (fun _ _ _ => Except.ok []) "fbw" "CBAD" none []).2.2.2.1 () rfl

/-! ### C10: `formatOutbound` strips internal blocks -/

lemma containsSeq_iff_occurs (pat : List Char) :
    ∀ l : List Char, containsSeq pat l = true ↔ pat <:+: l := by
  intro l
  induction l with
  | nil =>
    simp only [containsSeq]
    rw [ List.isPrefixOf_iff_prefix, List.prefix_nil, List.infix_nil]
  | cons c rest ih =>
    simp only [containsSeq, Bool.or_eq_true]
    rw [ List.isPrefixOf_iff_prefix, ih, List.infix_cons_iff]

lemma containsSeq_false_of_within (pat big small : List Char)
    (hbig : containsSeq pat big = false) (hinf : small <:+: big) :
    containsSeq pat small = false := by
  by_contra hc
  rw [Bool.not_eq_false, containsSeq_iff_occurs] at hc
  rw [← Bool.not_eq_true, containsSeq_iff_occurs] at hbig
  exact hbig (hc.trans hinf)

lemma stripUnclosed_isPre : ∀ l : List Char, stripUnclosed l <+: l := by
  intro l
  induction l with
  | nil => exact List.nil_prefix
  | cons c rest ih =>
    unfold stripUnclosed
    by_cases h : openTag.isPrefixOf (c :: rest) = true
    · rw [if_pos h]
      exact List.nil_prefix
    · rw [if_neg h]
      exact List.cons_prefix_cons.mpr ⟨rfl, ih⟩

lemma stripUnclosed_no_open : ∀ l : List Char, containsSeq openTag (stripUnclosed l) = false := by
  intro l
  induction l with
  | nil => decide
  | cons c rest ih =>
    unfold stripUnclosed
    by_cases h : openTag.isPrefixOf (c :: rest) = true
    · rw [if_pos h]
      decide
    · rw [if_neg h]
      simp only [containsSeq, Bool.or_eq_false_iff]
      refine ⟨?_, ih⟩
      by_contra hc
      rw [Bool.not_eq_false, List.isPrefixOf_iff_prefix] at hc
      have hp : c :: stripUnclosed rest <+: c :: rest :=
        List.cons_prefix_cons.mpr ⟨rfl, stripUnclosed_isPre rest⟩
      exact h (List.isPrefixOf_iff_prefix.mpr (hc.trans hp))

lemma trimL_within (l : List Char) : trimL l <:+: l := by
  unfold trimL
  have h1 : l.dropWhile wsChar <:+ l := List.dropWhile_suffix wsChar
  have h2 : (l.dropWhile wsChar).reverse.dropWhile wsChar <:+
      (l.dropWhile wsChar).reverse := List.dropWhile_suffix wsChar
  have h3 : ((l.dropWhile wsChar).reverse.dropWhile wsChar).reverse <+: l.dropWhile wsChar := by
    rw [← List.reverse_suffix] at *
    simpa using h2
  exact h3.isInfix.trans h1.isInfix

lemma dropAfterClose_of_close (l : List Char) (h : closeTag.isPrefixOf l = true) :
    dropAfterClose l = some (l.drop closeTag.length) := by
  cases l with
  | nil => exact absurd h (by decide)
  | cons c rest =>
    unfold dropAfterClose
    rw [if_pos h]

lemma closeTag_no_border :
    ∀ k, k < 11 → 1 ≤ k → ¬ closeTag.drop k = closeTag.take (11 - k) := by decide

lemma noClose : ∀ body rest : List Char, containsSeq closeTag body = false →
    dropAfterClose (body ++ (closeTag ++ rest)) = some rest := by
  intro body
  induction body with
  | nil =>
    intro rest _
    rw [List.nil_append]
    rw [dropAfterClose_of_close _ (List.isPrefixOf_iff_prefix.mpr
      (List.prefix_append closeTag rest))]
    rw [List.drop_left]
  | cons c b' ih =>
    intro rest h
    simp only [containsSeq, Bool.or_eq_false_iff] at h
    obtain ⟨hpre, hrest⟩ := h
    rw [List.cons_append]
    unfold dropAfterClose
    rw [if_neg ?_]
    · exact ih rest hrest
    · intro hP
      rw [ List.isPrefixOf_iff_prefix] at hP
      rw [← List.cons_append] at hP
      by_cases hk : 11 ≤ (c :: b').length
      · have hP' : closeTag <+: c :: b' :=
          List.prefix_of_prefix_length_le hP (List.prefix_append _ _) (by
            have : closeTag.length = 11 := by decide
            omega)
        rw [← List.isPrefixOf_iff_prefix] at hP'
        rw [hP'] at hpre
        exact absurd hpre (by decide)
      · push_neg at hk
        have hXP : c :: b' <+: closeTag :=
          List.prefix_of_prefix_length_le (List.prefix_append _ _) hP (by
            have : closeTag.length = 11 := by decide
            omega)
        have hXeq : c :: b' = closeTag.take (c :: b').length :=
          List.prefix_iff_eq_take.mp hXP
        obtain ⟨w, hw⟩ := hP
        rw [hXeq] at hw
        have hw' : closeTag.take (c :: b').length ++
            (closeTag.drop (c :: b').length ++ w) = closeTag.take (c :: b').length
              ++ (closeTag ++ rest) := by
          rw [← List.append_assoc, List.take_append_drop]
          exact hw
        have hdw := List.append_cancel_left hw'
        have hdrop_pre : closeTag.drop (c :: b').length <+: closeTag ++ rest :=
          ⟨w, hdw⟩
        have hlen : (closeTag.drop (c :: b').length).length
            = 11 - (c :: b').length := by
          rw [List.length_drop]
          have : closeTag.length = 11 := by decide
          omega
        have heq := List.prefix_iff_eq_take.mp hdrop_pre
        rw [hlen, List.take_append_eq_append_take] at heq
        have h11 : closeTag.length = 11 := by decide
        rw [h11] at heq
        have hz : 11 - (c :: b').length - 11 = 0 := by omega
        rw [hz, List.take_zero, List.append_nil] at heq
        exact closeTag_no_border (c :: b').length hk (by simp) heq

lemma wsChar_not_openTag (c : Char) (l : List Char) (hc : wsChar c = true) :
    openTag.isPrefixOf (c :: l) = false := by
  have hne : c ≠ '<' := by
    simp only [wsChar, Bool.or_eq_true, beq_iff_eq] at hc
    rcases hc with ((h | h) | h) | h <;> subst h <;> decide
  show List.isPrefixOf ('<' :: "internal>".toList) (c :: l) = false
  simp only [List.isPrefixOf, Bool.and_eq_false_iff]
  left
  simp [beq_eq_false_iff_ne]
  exact fun h => hne h.symm

lemma stripClosedFuel_allWs :
    ∀ fuel (l : List Char), l.length ≤ fuel → WsBlocks l →
      ∀ c ∈ stripClosedFuel fuel l, wsChar c = true := by
  intro fuel
  induction fuel with
  | zero =>
    intro l hlen hws
    have hnil : l = [] := List.length_eq_zero.mp (Nat.le_zero.mp hlen)
    subst hnil
    intro c hc
    exact absurd hc (List.not_mem_nil c)
  | succ fuel ih =>
    intro l hlen hws
    cases hws with
    | nil =>
      intro c hc
      exact absurd hc (List.not_mem_nil c)
    | ws c l' hc hws' =>
      show ∀ x ∈ stripClosedFuel (fuel + 1) (c :: l'), wsChar x = true
      unfold stripClosedFuel
      rw [if_neg (by rw [wsChar_not_openTag c l' hc]; simp)]
      intro x hx
      rcases List.mem_cons.mp hx with h | h
      · rw [h]; exact hc
      · exact ih l' (by simpa using Nat.le_of_succ_le_succ hlen) hws' x h
    | block body rest hb hws' =>
      have hassoc : openTag ++ body ++ closeTag ++ rest
          = openTag ++ (body ++ (closeTag ++ rest)) := by
        rw [List.append_assoc, List.append_assoc]
      rw [hassoc] at hlen ⊢
      have hcons : openTag ++ (body ++ (closeTag ++ rest))
          = '<' :: ("internal>".toList ++ (body ++ (closeTag ++ rest))) := rfl
      rw [hcons] at hlen ⊢
      unfold stripClosedFuel
      rw [if_pos (by
        rw [← hcons, List.isPrefixOf_iff_prefix]
        exact List.prefix_append _ _)]
      rw [show ('<' :: ("internal>".toList ++ (body ++ (closeTag ++ rest)))).drop
            openTag.length = body ++ (closeTag ++ rest) from by
        rw [← hcons]
        exact List.drop_left openTag _]
      rw [noClose body rest hb]
      intro x hx
      refine ih rest ?_ hws' x hx
      have hlo : openTag.length = 10 := by decide
      have hL : ('<' :: ("internal>".toList ++ (body ++ (closeTag ++ rest)))).length
          = 10 + (body.length + (11 + rest.length)) := by
        rw [← hcons]
        have hlc : closeTag.length = 11 := by decide
        simp [List.length_append, hlo, hlc]
      omega

lemma allWs_stripUnclosed (l : List Char) (h : ∀ c ∈ l, wsChar c = true) :
    stripUnclosed l = l := by
  induction l with
  | nil => rfl
  | cons c rest ih =>
    unfold stripUnclosed
    rw [if_neg (by
      rw [wsChar_not_openTag c rest (h c (List.mem_cons_self c rest))]
      simp)]
    rw [ih fun x hx => h x (List.mem_cons_of_mem c hx)]

lemma allWs_trimL (l : List Char) (h : ∀ c ∈ l, wsChar c = true) : trimL l = [] := by
  unfold trimL
  rw [List.dropWhile_eq_nil_iff.mpr h]
  rfl

/-- C10.  `formatOutbound` (= `stripInternalTags` + empty-string guard)
removes every properly closed `<internal>…</internal>` block and everything
from any remaining unclosed `<internal>` to the end, then trims whitespace:
the result never contains the substring `"<internal>"`, and an input
consisting entirely of closed internal blocks and whitespace yields the empty
string. -/
theorem formatOutbound_strips_internal (s : List Char) :
    containsSeq openTag (formatOutbound s) = false ∧
    (WsBlocks s → formatOutbound s = []) := by
  constructor
  · unfold formatOutbound
    by_cases h : stripInternalTags s = []
    · rw [if_pos h]
      decide
    · rw [if_neg h]
      unfold stripInternalTags
      exact containsSeq_false_of_within openTag (stripUnclosed (stripClosed s))
        (trimL (stripUnclosed (stripClosed s))) (stripUnclosed_no_open (stripClosed s))
        (trimL_within _)
  · intro hws
    have hall : ∀ c ∈ stripClosed s, wsChar c = true :=
      stripClosedFuel_allWs s.length s (Nat.le_refl _) hws
    unfold formatOutbound stripInternalTags
    rw [allWs_stripUnclosed _ hall, allWs_trimL _ hall]
    rfl

/-- C10 (witness): one closed internal block with surrounding whitespace is
stripped to the empty string. -/
theorem formatOutbound_strips_internal_witness :
    WsBlocks (" <internal>hi</internal>".toList) ∧
    formatOutbound (" <internal>hi</internal>".toList) = [] := by
  have hws : WsBlocks (" <internal>hi</internal>".toList) := by
    have heq : (" <internal>hi</internal>".toList : List Char)
        = ' ' :: (openTag ++ (('h' :: 'i' :: []) ++ (closeTag ++ []))) := by decide
    rw [heq]
    exact WsBlocks.ws ' ' _ (by decide)
      (WsBlocks.block ('h' :: 'i' :: []) [] (by decide) WsBlocks.nil)
  exact ⟨hws, (formatOutbound_strips_internal _).2 hws⟩

end Corey
